import Mathlib

/-!
Verification of the devsync real-time collaboration app's synchronization
logic: the whiteboard broadcast/sync scheme (`src/app/room/[roomName]/page.tsx`),
the Yjs document sync bridge (`LiveKitYjsProvider`), the cursor presence
broadcaster (`usePresence`), and the whiteboard undo/redo history
(`WhiteboardPro`). Each TypeScript handler is embedded as a pure Lean
function over explicit state; message-driven behaviour is modelled as a
step function folded over event traces.
-/

namespace DevSync

/-! ## Whiteboard data model (`src/lib/whiteboard/types.ts`) -/

/-- A 2D point. JS numbers are embedded as integers: every claim treats
coordinates as inert data, never computing with them. -/
structure Point where
  x : Int
  y : Int
deriving DecidableEq, Repr

/-- Discriminator of a whiteboard element (`ElementType`). -/
inductive ElementType where
  | stroke
  | shape
  | sticky
deriving DecidableEq, Repr

/-- Drawing tool variants (`ToolType`). -/
inductive ToolType where
  | pen
  | highlighter
  | eraser
  | laser
  | rectangle
  | ellipse
  | arrow
  | line
  | sticky
  | select
deriving DecidableEq, Repr

/-- `WhiteboardElement`: a discriminated record with a string id; optional
fields cover strokes, shapes and sticky notes. -/
structure WhiteboardElement where
  id : String
  type : ElementType
  tool : ToolType
  color : String
  width : Int
  opacity : Int
  points : Option (List Point) := none
  startPoint : Option Point := none
  endPoint : Option Point := none
  text : Option String := none
  position : Option Point := none
  size : Option (Int × Int) := none
  backgroundColor : Option String := none
deriving DecidableEq, Repr

/-! ## Whiteboard wire protocol (`page.tsx`, topic "whiteboard")

JSON envelopes published on the reliable "whiteboard" topic. A raw inbound
payload is embedded as `Option WhiteboardMsg`: `none` models a payload on
which `JSON.parse` (or the shape guards `json.strokes && Array.isArray`)
fails, `some` a successfully decoded envelope. -/

inductive WhiteboardMsg where
  | stroke (data : WhiteboardElement)
  | clear
  | syncRequest
  | remove (id : String)
  | syncResponse (strokes : List WhiteboardElement)
deriving DecidableEq, Repr

/-- Room-level context seen by the whiteboard handlers: the local
participant's identity and whether `room.state === 'connected'`. -/
structure RoomCtx where
  localIdentity : String
  connected : Bool
deriving DecidableEq, Repr

/-- `handleData` (page.tsx lines 217-253): the whiteboard `DataReceived`
listener. Returns the new `strokes` state together with the list of
envelopes it attempts to publish. Messages on another topic are ignored;
messages from the local identity are ignored (loopback guard); a payload
that fails to decode is dropped by the `try/catch` with the state
unchanged. The `remove` branch is guarded by JS truthiness of `json.id`,
so an empty-string id does nothing; the `sync-response` branch replaces
the whole list unconditionally. -/
def handleData (ctx : RoomCtx) (sender topic : String)
    (payload : Option WhiteboardMsg) (strokes : List WhiteboardElement) :
    List WhiteboardElement × List WhiteboardMsg :=
  if topic ≠ "whiteboard" then (strokes, [])
  else if sender = ctx.localIdentity then (strokes, [])
  else
    match payload with
    | none => (strokes, [])
    | some msg =>
      match msg with
      | .stroke d => (strokes ++ [d], [])
      | .clear => ([], [])
      | .syncRequest =>
          if strokes.length > 0 ∧ ctx.connected then
            (strokes, [.syncResponse strokes])
          else (strokes, [])
      | .remove i =>
          if i ≠ "" then (strokes.filter (fun s => s.id ≠ i), [])
          else (strokes, [])
      | .syncResponse l => (l, [])

/-- `handleAddStroke` (page.tsx lines 287-297): append locally, then
publish `{type:'stroke', data}` when connected. -/
def handleAddStroke (ctx : RoomCtx) (stroke : WhiteboardElement)
    (strokes : List WhiteboardElement) :
    List WhiteboardElement × List WhiteboardMsg :=
  (strokes ++ [stroke], if ctx.connected then [.stroke stroke] else [])

/-- `handleRemoveStroke` (page.tsx lines 299-309): filter locally by id,
then publish `{type:'remove', id}` when connected. -/
def handleRemoveStroke (ctx : RoomCtx) (i : String)
    (strokes : List WhiteboardElement) :
    List WhiteboardElement × List WhiteboardMsg :=
  (strokes.filter (fun s => s.id ≠ i), if ctx.connected then [.remove i] else [])

/-- `handleClear` (page.tsx lines 311-321): empty locally, then publish
`{type:'clear'}` when connected. -/
def handleClear (ctx : RoomCtx) (_strokes : List WhiteboardElement) :
    List WhiteboardElement × List WhiteboardMsg :=
  ([], if ctx.connected then [.clear] else [])

/-! ## Local-vs-remote correspondence (claim C1 material) -/

/-- A user-level whiteboard operation. -/
inductive WhiteboardOp where
  | add (e : WhiteboardElement)
  | remove (i : String)
  | clear
deriving DecidableEq, Repr

/-- State change performed by the local handlers
(`handleAddStroke` / `handleRemoveStroke` / `handleClear`). -/
def applyLocal (strokes : List WhiteboardElement) (op : WhiteboardOp) :
    List WhiteboardElement :=
  match op with
  | .add e => strokes ++ [e]
  | .remove i => strokes.filter (fun s => s.id ≠ i)
  | .clear => []

/-- The envelope the local handler publishes for an operation. -/
def msgOfOp (op : WhiteboardOp) : WhiteboardMsg :=
  match op with
  | .add e => .stroke e
  | .remove i => .remove i
  | .clear => .clear

/-- State change performed at a receiving participant when the envelope of
`op` arrives from a remote sender (`handleData`, state component only). -/
def applyRemote (ctx : RoomCtx) (sender : String)
    (strokes : List WhiteboardElement) (op : WhiteboardOp) :
    List WhiteboardElement :=
  (handleData ctx sender "whiteboard" (some (msgOfOp op)) strokes).1

/-- Folding a sequence of operations through the local handlers. -/
def applyLocalOps (strokes : List WhiteboardElement)
    (ops : List WhiteboardOp) : List WhiteboardElement :=
  ops.foldl applyLocal strokes

/-- Folding a sequence of operations through the remote message handler. -/
def applyRemoteOps (ctx : RoomCtx) (sender : String)
    (strokes : List WhiteboardElement) (ops : List WhiteboardOp) :
    List WhiteboardElement :=
  ops.foldl (applyRemote ctx sender) strokes

/-- An operation whose remove id is non-empty (so the receiver's JS
truthiness guard `if (json.id)` passes). -/
def opRemoveNonempty : WhiteboardOp → Bool
  | .remove i => i ≠ ""
  | _ => true

/-! ## Document sync bridge (`LiveKitYjsProvider`)

The Yjs document and awareness objects are external; the bridge only ever
calls `Y.applyUpdate(doc, payload, this)` and
`applyAwarenessUpdate(awareness, payload, participant)` on inbound data,
so the document is embedded as the ordered list of binary updates the
bridge has applied to it (a byte payload is a `List Nat`): the document is
unchanged exactly when no update is applied. -/

def DOC_TOPIC : String := "code-editor"

def AWARENESS_TOPIC : String := "code-awareness"

def SYNC_REQUEST_TOPIC : String := "code-sync-request"

def SYNC_RESPONSE_TOPIC : String := "code-sync-response"

/-- Mutable state of a `LiveKitYjsProvider`: the updates applied to the
doc, the awareness updates applied, the once-only `synced` flag, the
bridge's `connected` flag and the room's connection state. -/
structure ProviderState where
  applied : List (List Nat)
  awarenessApplied : List (List Nat)
  synced : Bool
  connected : Bool
  roomConnected : Bool
deriving DecidableEq, Repr

/-- Observable side effects of one `handleDataReceived` call. -/
inductive ProviderOut where
  | fullStateSent
deriving DecidableEq, Repr

/-- `LiveKitYjsProvider.handleDataReceived` (part_000 lines 121-151):
drops messages from the local identity, applies document updates,
applies awareness updates, answers sync-requests with the full state
(`sendFullState`, itself guarded by the connected flags), and applies a
sync-response only while `synced` is still false, setting the flag. -/
def handleDataReceived (localIdentity sender topic : String)
    (payload : List Nat) (s : ProviderState) :
    ProviderState × List ProviderOut :=
  if sender = localIdentity then (s, [])
  else if topic = DOC_TOPIC then
    ({ s with applied := s.applied ++ [payload] }, [])
  else if topic = AWARENESS_TOPIC then
    ({ s with awarenessApplied := s.awarenessApplied ++ [payload] }, [])
  else if topic = SYNC_REQUEST_TOPIC then
    (s, if s.connected ∧ s.roomConnected then [.fullStateSent] else [])
  else if topic = SYNC_RESPONSE_TOPIC then
    if !s.synced then
      ({ s with applied := s.applied ++ [payload], synced := true }, [])
    else (s, [])
  else (s, [])

/-- One inbound data-channel message as seen by the provider. -/
structure ProviderMsg where
  sender : String
  topic : String
  payload : List Nat
deriving DecidableEq, Repr

/-- Fold a trace of inbound messages through `handleDataReceived`
(state component only). -/
def providerRun (localIdentity : String) (s : ProviderState)
    (msgs : List ProviderMsg) : ProviderState :=
  msgs.foldl (fun s m => (handleDataReceived localIdentity m.sender m.topic m.payload s).1) s

/-- Number of times along a trace that a sync-response snapshot is applied
to the document: an application is exactly a step that flips `synced` from
false to true. -/
def syncSnapshotApplications (localIdentity : String) :
    ProviderState → List ProviderMsg → Nat
  | _, [] => 0
  | s, m :: rest =>
    let s' := (handleDataReceived localIdentity m.sender m.topic m.payload s).1
    (if s'.synced ∧ ¬ s.synced then 1 else 0) +
      syncSnapshotApplications localIdentity s' rest

/-! ## Cursor presence (`usePresence`, `src/hooks/usePresence.ts`) -/

def PRESENCE_TOPIC : String := "cursor-presence"

def BROADCAST_INTERVAL_MS : Nat := 33

def CURSOR_STALE_MS : Nat := 3000

/-- Cursor position normalized to the container (inert data, embedded as
integers). -/
structure CursorPosition where
  x : Int
  y : Int
deriving DecidableEq, Repr

/-- A remote participant's cursor entry in the presence map. -/
structure ParticipantCursor where
  x : Int
  y : Int
  identity : String
  color : String
  timestamp : Nat
deriving DecidableEq, Repr

/-- The predefined cursor palette (`CURSOR_COLORS`). -/
def CURSOR_COLORS : List String :=
  ["#ef4444", "#f97316", "#eab308", "#22c55e",
   "#06b6d4", "#3b82f6", "#8b5cf6", "#ec4899"]

/-- JS `ToInt32` coercion (applied by the `<<` operator). -/
def toInt32 (n : Int) : Int := (n + 2 ^ 31) % 2 ^ 32 - 2 ^ 31

/-- One step of the `getParticipantColor` hash loop:
`hash = charCode + ((hash << 5) - hash)`, where `<<` wraps to Int32 and
the remaining arithmetic is exact. -/
def hashStep (hash : Int) (code : Nat) : Int :=
  (code : Int) + (toInt32 (hash * 32) - hash)

/-- `getParticipantColor` (usePresence lines 268-274): a deterministic
colour from the identity's char codes. -/
def getParticipantColor (identity : String) : String :=
  let hash := (identity.toList.map Char.toNat).foldl hashStep 0
  CURSOR_COLORS.getD (hash.natAbs % CURSOR_COLORS.length) "#ef4444"

/-- The presence map: a JS object keyed by participant identity, embedded
as an association list of entries with distinct identities. -/
abbrev CursorMap : Type := List ParticipantCursor

/-- `{...prev, [identity]: entry}`: replace the entry for the identity if
present, otherwise add it. -/
def setCursor (m : CursorMap) (c : ParticipantCursor) : CursorMap :=
  if m.any (fun e => e.identity = c.identity) then
    m.map (fun e => if e.identity = c.identity then c else e)
  else m ++ [c]

/-- `usePresence.handleData` (lines 326-351): ignores other topics and
loopback messages, drops payloads that fail `JSON.parse` (the catch leaves
the map unchanged), otherwise stores the position under the sender's
identity with the sender's colour and the current time. -/
def presenceHandleData (localIdentity sender topic : String)
    (payload : Option CursorPosition) (now : Nat) (cursors : CursorMap) :
    CursorMap :=
  if topic ≠ PRESENCE_TOPIC then cursors
  else if sender = localIdentity then cursors
  else
    match payload with
    | none => cursors
    | some pos =>
      setCursor cursors
        { x := pos.x, y := pos.y, identity := sender,
          color := getParticipantColor sender, timestamp := now }

/-- The 1-second stale-cursor sweep (usePresence lines 301-320): delete
every entry with `now - timestamp > CURSOR_STALE_MS`, keep the rest
untouched. -/
def sweepStaleCursors (now : Nat) (cursors : CursorMap) : CursorMap :=
  cursors.filter (fun c => ¬ (now - c.timestamp > CURSOR_STALE_MS))

/-! ## Throttled cursor broadcast (`usePresence.broadcastCursor`)

`broadcastCursor` records the pending position and schedules at most one
animation-frame callback; the callback fires later and performs the send
if at least `BROADCAST_INTERVAL_MS` has passed since the previous send.
The event loop is modelled as a trace of `call` events (invocations of
`broadcastCursor`) and `frame` events (the scheduled callback running at
a given clock value). -/

/-- The three refs backing the throttle: `lastBroadcastRef`,
`pendingPositionRef`, and whether an animation frame is scheduled
(`animationFrameRef.current !== null`). -/
structure BroadcastState where
  lastBroadcast : Nat
  pending : Option CursorPosition
  framePending : Bool
deriving DecidableEq, Repr

/-- Initial ref values (`useRef(0)`, `useRef(null)`, `useRef(null)`). -/
def initBroadcastState : BroadcastState :=
  { lastBroadcast := 0, pending := none, framePending := false }

/-- `broadcastCursor(position)` body up to the `requestAnimationFrame`
call: store the pending position; if a frame is already scheduled, return;
otherwise mark a frame as scheduled. Never sends on its own. -/
def broadcastCursorCall (enabled : Bool) (s : BroadcastState)
    (pos : CursorPosition) : BroadcastState :=
  if !enabled then s
  else
    let s := { s with pending := some pos }
    if s.framePending then s
    else { s with framePending := true }

/-- The `requestAnimationFrame` callback running at clock value `now`:
clear the scheduled-frame marker; skip if the minimum spacing has not
elapsed or nothing is pending; otherwise record `now` as the last
broadcast time and send the pending position (the pending ref is not
cleared by the source). Returns the position sent, if any. -/
def broadcastFrame (s : BroadcastState) (now : Nat) :
    BroadcastState × Option CursorPosition :=
  let s := { s with framePending := false }
  if now - s.lastBroadcast < BROADCAST_INTERVAL_MS then (s, none)
  else
    match s.pending with
    | none => (s, none)
    | some pos => ({ s with lastBroadcast := now }, some pos)

/-- An event of the broadcaster's event loop. -/
inductive BroadcastEvent where
  | call (pos : CursorPosition)
  | frame (now : Nat)
deriving DecidableEq, Repr

/-- Run a trace of events, collecting every network send as a pair of the
clock value at which it happened and the position it carried. -/
def runBroadcast (enabled : Bool) (s : BroadcastState) :
    List BroadcastEvent → BroadcastState × List (Nat × CursorPosition)
  | [] => (s, [])
  | .call pos :: rest => runBroadcast enabled (broadcastCursorCall enabled s pos) rest
  | .frame now :: rest =>
    let (s', sent) := broadcastFrame s now
    let (sFin, sends) := runBroadcast enabled s' rest
    (sFin, (match sent with
            | some pos => [(now, pos)]
            | none => []) ++ sends)

/-! ## Whiteboard undo/redo history (`WhiteboardPro`, part_005) -/

/-- History state: the snapshot array and the current index
(`useState<WhiteboardElement[][]>([[]])`, `useState(0)`). -/
structure HistoryState where
  history : List (List WhiteboardElement)
  historyIndex : Nat
deriving DecidableEq, Repr

/-- Initial history: one empty snapshot, index 0. -/
def initHistory : HistoryState := { history := [[]], historyIndex := 0 }

/-- `pushToHistory` (part_005 lines 103-111): truncate the redo tail
(`slice(0, historyIndex + 1)`), push the new snapshot, `shift()` the
oldest snapshot when the length exceeds 50, and advance the index capped
at 49. -/
def pushToHistory (s : HistoryState) (newElements : List WhiteboardElement) :
    HistoryState :=
  let newHistory := s.history.take (s.historyIndex + 1) ++ [newElements]
  let newHistory := if newHistory.length > 50 then newHistory.tail else newHistory
  { history := newHistory, historyIndex := min (s.historyIndex + 1) 49 }

/-- `canUndo` (part_005 line 113). -/
def canUndo (s : HistoryState) : Bool := s.historyIndex > 0

/-- `canRedo` (part_005 line 114). -/
def canRedo (s : HistoryState) : Bool := s.historyIndex < s.history.length - 1

/-- `handleUndo` (part_005 lines 116-121): move the index back one when
undo is available. -/
def handleUndo (s : HistoryState) : HistoryState :=
  if canUndo s then { s with historyIndex := s.historyIndex - 1 } else s

/-- `handleRedo` (part_005 lines 123-128): move the index forward one when
redo is available. -/
def handleRedo (s : HistoryState) : HistoryState :=
  if canRedo s then { s with historyIndex := s.historyIndex + 1 } else s

/-- A history-affecting operation. -/
inductive HistoryOp where
  | push (snapshot : List WhiteboardElement)
  | undo
  | redo
deriving DecidableEq, Repr

/-- Apply one history operation. -/
def applyHistoryOp (s : HistoryState) (op : HistoryOp) : HistoryState :=
  match op with
  | .push snapshot => pushToHistory s snapshot
  | .undo => handleUndo s
  | .redo => handleRedo s

/-- Fold a sequence of history operations from a starting state. -/
def runHistory (s : HistoryState) (ops : List HistoryOp) : HistoryState :=
  ops.foldl applyHistoryOp s

/-! ## Auxiliary definitions used by the statements below -/

/-- A minimal pen-stroke element with a given id, used as concrete input. -/
def sampleElement (i : String) : WhiteboardElement :=
  { id := i, type := .stroke, tool := .pen, color := "#6366f1",
    width := 2, opacity := 1,
    points := some [{ x := 0, y := 0 }, { x := 1, y := 1 }] }

/-- A fixed room context for concrete runs: local identity "alice",
channel connected. -/
def ctxA : RoomCtx := { localIdentity := "alice", connected := true }

/-- The ids of the elements of a list, in order. -/
def elementIds (l : List WhiteboardElement) : List String :=
  l.map (fun e => e.id)

/-- Freshness of a sequence of operations relative to a step function:
every `add` introduces an id that is not in the list at the moment the
add is applied. -/
def freshAdds (step : List WhiteboardElement → WhiteboardOp → List WhiteboardElement) :
    List WhiteboardOp → List WhiteboardElement → Bool
  | [], _ => true
  | op :: ops, l =>
    (match op with
     | .add e => decide (e.id ∉ elementIds l)
     | _ => true) && freshAdds step ops (step l op)

/-- Invariant of the undo/redo history: at least one snapshot, at most 50,
and the index points at an existing snapshot. -/
def HistoryInv (s : HistoryState) : Prop :=
  1 ≤ s.history.length ∧ s.history.length ≤ 50 ∧
    s.historyIndex < s.history.length

/-- A stale cursor entry (timestamp 1000) for concrete sweeps. -/
def staleCursor : ParticipantCursor :=
  { x := 1, y := 2, identity := "bob", color := "#ef4444", timestamp := 1000 }

/-- A fresh cursor entry (timestamp 4500) for concrete sweeps. -/
def freshCursor : ParticipantCursor :=
  { x := 3, y := 4, identity := "carol", color := "#f97316", timestamp := 4500 }

/-- Ninety-nine distinct cursor positions, used together with one final
position to build a burst of one hundred `broadcastCursor` calls. -/
def manyPositions : List CursorPosition :=
  (List.range 99).map (fun i => { x := (i : Int), y := (i : Int) })

/-! # Theorems -/

/-- Claim C2: for every prior local whiteboard element list and every
whiteboard sync-response received from a remote sender, the handler
replaces the entire local list with the list carried in the message.
There is no once-only guard: the replacement does not depend on the prior
list at all, so a sync-response arriving after local edits have already
occurred discards those edits, regardless of recency. -/
theorem C2_sync_response_replaces (ctx : RoomCtx) (sender : String)
    (prev l : List WhiteboardElement) (h : sender ≠ ctx.localIdentity) :
    handleData ctx sender "whiteboard" (some (.syncResponse l)) prev = (l, []) := by
  simp [handleData, h]

/-- Witness for C2: a sync-response wipes out a pre-existing local edit. -/
theorem C2_sync_response_replaces_witness :
    handleData ctxA "bob" "whiteboard"
        (some (.syncResponse [sampleElement "z"])) [sampleElement "a"] =
      ([sampleElement "z"], []) :=
  C2_sync_response_replaces ctxA "bob" [sampleElement "a"] [sampleElement "z"]
    (by decide)

/-- Claim C6: after one execution of the presence sweep, every cursor
entry whose timestamp is more than `CURSOR_STALE_MS` (3000 ms) older than
the current time is absent from the presence map, every entry refreshed
within the last 3000 ms is retained unchanged, and nothing else appears. -/
theorem C6_sweep_staleness (now : Nat) (m : CursorMap) :
    (∀ c ∈ m, now - c.timestamp > CURSOR_STALE_MS →
      c ∉ sweepStaleCursors now m) ∧
    (∀ c ∈ m, now - c.timestamp ≤ CURSOR_STALE_MS →
      c ∈ sweepStaleCursors now m) ∧
    (∀ c ∈ sweepStaleCursors now m,
      c ∈ m ∧ now - c.timestamp ≤ CURSOR_STALE_MS) := by
  refine ⟨?_, ?_, ?_⟩ <;> intro c hc <;>
    simp only [sweepStaleCursors, List.mem_filter, decide_eq_true_eq, gt_iff_lt,
      not_lt] at *
  · intro hstale
    intro hmem
    omega
  · intro hfresh
    exact ⟨hc, hfresh⟩
  · exact ⟨hc.1, hc.2⟩

/-- Witness for C6: at time 5000, the entry stamped 1000 is swept out and
the entry stamped 4500 is retained. -/
theorem C6_sweep_staleness_witness :
    staleCursor ∉ sweepStaleCursors 5000 [staleCursor, freshCursor] ∧
    freshCursor ∈ sweepStaleCursors 5000 [staleCursor, freshCursor] :=
  ⟨(C6_sweep_staleness 5000 [staleCursor, freshCursor]).1 staleCursor
      (by decide) (by decide),
   (C6_sweep_staleness 5000 [staleCursor, freshCursor]).2.1 freshCursor
      (by decide) (by decide)⟩

/-- Claim C7: an inbound data message whose sender identity equals the
local participant's identity is ignored by every handler: the whiteboard
listener leaves the element list unchanged and publishes nothing, the
document bridge leaves the applied updates, awareness and synced flag
unchanged and publishes nothing, and the presence listener leaves the
cursor map unchanged — on every topic and for every payload. -/
theorem C7_loopback_ignored (ctx : RoomCtx) (topic : String)
    (payload : Option WhiteboardMsg) (strokes : List WhiteboardElement)
    (localIdentity : String) (p : List Nat) (s : ProviderState)
    (cpos : Option CursorPosition) (now : Nat) (cursors : CursorMap) :
    handleData ctx ctx.localIdentity topic payload strokes = (strokes, []) ∧
    handleDataReceived localIdentity localIdentity topic p s = (s, []) ∧
    presenceHandleData localIdentity localIdentity topic cpos now cursors =
      cursors := by
  refine ⟨?_, ?_, ?_⟩
  · by_cases ht : topic = "whiteboard" <;> simp [handleData, ht]
  · simp [handleDataReceived]
  · by_cases ht : topic = PRESENCE_TOPIC <;> simp [presenceHandleData, ht]

/-- Claim C8: on a whiteboard sync-request from a remote sender, the
handler keeps its own list unchanged and publishes the entire current
list as a sync-response exactly when the list is non-empty and the room
is connected; with an empty local list it publishes nothing. -/
theorem C8_sync_request_answer (ctx : RoomCtx) (sender : String)
    (strokes : List WhiteboardElement) (h : sender ≠ ctx.localIdentity) :
    (handleData ctx sender "whiteboard" (some .syncRequest) strokes).1 =
      strokes ∧
    ((handleData ctx sender "whiteboard" (some .syncRequest) strokes).2 =
        [.syncResponse strokes] ↔ strokes ≠ [] ∧ ctx.connected = true) ∧
    (strokes = [] →
      (handleData ctx sender "whiteboard" (some .syncRequest) strokes).2 = []) := by
  by_cases hc : strokes.length > 0 ∧ ctx.connected = true
  · have hne : strokes ≠ [] := by
      cases strokes
      · simp at hc
      · simp
    refine ⟨?_, ?_, ?_⟩
    · simp [handleData, h, hc]
    · simp [handleData, h, hc, hne, hc.2]
    · intro he
      exact absurd he hne
  · have hiff : ¬ (strokes ≠ [] ∧ ctx.connected = true) := by
      intro hcontra
      apply hc
      refine ⟨?_, hcontra.2⟩
      cases strokes
      · exact absurd rfl hcontra.1
      · simp
    refine ⟨?_, ?_, ?_⟩
    · simp [handleData, h, hc]
    · simp [handleData, h, hc, hiff]
    · intro _
      simp [handleData, h, hc]

/-- Witness for C8: with one element and a connected room the full list
is republished as a sync-response. -/
theorem C8_sync_request_answer_witness :
    (handleData ctxA "bob" "whiteboard" (some .syncRequest)
        [sampleElement "a1"]).2 = [.syncResponse [sampleElement "a1"]] :=
  ((C8_sync_request_answer ctxA "bob" [sampleElement "a1"]
      (by decide)).2.1).mpr (by decide)

/-- Claim C9: an inbound payload on the whiteboard or cursor-presence
topic that fails to parse as JSON is dropped with all local state
unchanged and nothing published; the handlers are total, so no error
propagates to the caller. -/
theorem C9_parse_failure_dropped (ctx : RoomCtx) (sender : String)
    (strokes : List WhiteboardElement) (localIdentity : String) (now : Nat)
    (cursors : CursorMap) :
    handleData ctx sender "whiteboard" none strokes = (strokes, []) ∧
    presenceHandleData localIdentity sender PRESENCE_TOPIC none now cursors =
      cursors := by
  constructor
  · by_cases hs : sender = ctx.localIdentity <;> simp [handleData, hs]
  · by_cases hs : sender = localIdentity <;> simp [presenceHandleData, hs]

/-- Claim C1 fails as stated: a local remove with the empty-string id
filters the element out locally, but the receiver's `if (json.id)`
truthiness guard rejects the empty id, so the remote copy keeps the
element and the two lists diverge. -/
theorem C1_counterexample :
    applyLocalOps [sampleElement ""] [.remove ""] ≠
      applyRemoteOps ctxA "bob" [sampleElement ""] [.remove ""] := by
  decide

/-- For a single operation whose remove id (if any) is non-empty, the
remote message handler performs exactly the local state change. -/
theorem applyRemote_eq_applyLocal (ctx : RoomCtx) (sender : String)
    (l : List WhiteboardElement) (op : WhiteboardOp)
    (hs : sender ≠ ctx.localIdentity) (hop : opRemoveNonempty op = true) :
    applyRemote ctx sender l op = applyLocal l op := by
  cases op with
  | add e => simp [applyRemote, applyLocal, msgOfOp, handleData, hs]
  | remove i =>
      have hi : i ≠ "" := by simpa [opRemoveNonempty] using hop
      simp [applyRemote, applyLocal, msgOfOp, handleData, hs, hi]
  | clear => simp [applyRemote, applyLocal, msgOfOp, handleData, hs]

/-- Claim C1 amended: starting from equal element lists, applying a
sequence of add/remove/clear operations through the local handlers at one
participant and through the corresponding remote message handlers at
another yields identical lists, provided every remove operation carries a
non-empty id (in-order delivery assumed). -/
theorem C1_local_remote_agree (ctx : RoomCtx) (sender : String)
    (ops : List WhiteboardOp) (l : List WhiteboardElement)
    (hs : sender ≠ ctx.localIdentity)
    (hops : ∀ op ∈ ops, opRemoveNonempty op = true) :
    applyRemoteOps ctx sender l ops = applyLocalOps l ops := by
  induction ops generalizing l with
  | nil => rfl
  | cons op rest ih =>
      have h1 : opRemoveNonempty op = true := hops op (List.mem_cons_self op rest)
      have h2 : ∀ o ∈ rest, opRemoveNonempty o = true :=
        fun o ho => hops o (List.mem_cons_of_mem op ho)
      simp only [applyRemoteOps, applyLocalOps, List.foldl_cons]
      rw [applyRemote_eq_applyLocal ctx sender l op hs h1]
      exact ih (applyLocal l op) h2

/-- Witness for amended C1: add, remove (non-empty id) and clear agree
between the local and remote paths. -/
theorem C1_local_remote_agree_witness :
    applyRemoteOps ctxA "bob" [sampleElement "a0"]
        [.add (sampleElement "a1"), .remove "a1", .clear,
         .add (sampleElement "a2")] =
      applyLocalOps [sampleElement "a0"]
        [.add (sampleElement "a1"), .remove "a1", .clear,
         .add (sampleElement "a2")] :=
  C1_local_remote_agree ctxA "bob" _ [sampleElement "a0"] (by decide) (by decide)

/-- Claim C4 fails as stated: neither the local add handler nor the
remote stroke branch checks for a duplicate id, so receiving the same
element twice leaves two elements with the same id in the active list. -/
theorem C4_counterexample :
    ¬ (elementIds (applyRemoteOps ctxA "bob" []
        [.add (sampleElement "a1"), .add (sampleElement "a1")])).Nodup := by
  decide

/-- Filtering never introduces duplicate ids. -/
theorem elementIds_filter_nodup (l : List WhiteboardElement)
    (p : WhiteboardElement → Bool) (h : (elementIds l).Nodup) :
    (elementIds (l.filter p)).Nodup := by
  have hsub : (elementIds (l.filter p)).Sublist (elementIds l) := by
    simp only [elementIds]
    exact (List.filter_sublist l).map (fun e => e.id)
  exact List.Nodup.sublist hsub h

/-- Appending an element with a fresh id preserves id uniqueness. -/
theorem elementIds_append_nodup (l : List WhiteboardElement)
    (e : WhiteboardElement) (h : (elementIds l).Nodup)
    (he : e.id ∉ elementIds l) : (elementIds (l ++ [e])).Nodup := by
  simp only [elementIds, List.map_append, List.map_cons, List.map_nil] at *
  rw [List.nodup_append]
  exact ⟨h, List.nodup_singleton e.id, List.disjoint_singleton.mpr he⟩

/-- Folding any step function that preserves id uniqueness for fresh adds
keeps ids unique along the whole sequence. -/
theorem freshAdds_nodup
    (step : List WhiteboardElement → WhiteboardOp → List WhiteboardElement)
    (hstep : ∀ l op, (elementIds l).Nodup →
      (∀ e, op = .add e → e.id ∉ elementIds l) →
      (elementIds (step l op)).Nodup) :
    ∀ (ops : List WhiteboardOp) (l : List WhiteboardElement),
      (elementIds l).Nodup → freshAdds step ops l = true →
      (elementIds (ops.foldl step l)).Nodup := by
  intro ops
  induction ops with
  | nil => intro l h _; simpa using h
  | cons op rest ih =>
      intro l h hf
      simp only [freshAdds, Bool.and_eq_true] at hf
      refine ih (step l op) (hstep l op h ?_) hf.2
      intro e he
      subst he
      simpa using hf.1

/-- The local handlers preserve id uniqueness when adds are fresh. -/
theorem applyLocal_nodup (l : List WhiteboardElement) (op : WhiteboardOp)
    (h : (elementIds l).Nodup)
    (hfresh : ∀ e, op = .add e → e.id ∉ elementIds l) :
    (elementIds (applyLocal l op)).Nodup := by
  cases op with
  | add e => exact elementIds_append_nodup l e h (hfresh e rfl)
  | remove i => exact elementIds_filter_nodup l _ h
  | clear => simp [applyLocal, elementIds]

/-- The remote message handler preserves id uniqueness when adds are
fresh. -/
theorem applyRemote_nodup (ctx : RoomCtx) (sender : String)
    (hs : sender ≠ ctx.localIdentity) (l : List WhiteboardElement)
    (op : WhiteboardOp) (h : (elementIds l).Nodup)
    (hfresh : ∀ e, op = .add e → e.id ∉ elementIds l) :
    (elementIds (applyRemote ctx sender l op)).Nodup := by
  cases op with
  | add e =>
      have heq : applyRemote ctx sender l (.add e) = l ++ [e] := by
        simp [applyRemote, msgOfOp, handleData, hs]
      rw [heq]
      exact elementIds_append_nodup l e h (hfresh e rfl)
  | remove i =>
      by_cases hi : i = ""
      · have heq : applyRemote ctx sender l (.remove i) = l := by
          simp [applyRemote, msgOfOp, handleData, hs, hi]
        rw [heq]; exact h
      · have heq : applyRemote ctx sender l (.remove i) =
            l.filter (fun s => s.id ≠ i) := by
          simp [applyRemote, msgOfOp, handleData, hs, hi]
        rw [heq]
        exact elementIds_filter_nodup l _ h
  | clear =>
      have heq : applyRemote ctx sender l .clear = [] := by
        simp [applyRemote, msgOfOp, handleData, hs]
      rw [heq]
      simp [elementIds]

/-- Claim C4 amended: after any sequence of add/remove operations, local
or remote-message driven, in which every added element's id is absent
from the list at the moment it is added, the active element list contains
no two elements with the same id. -/
theorem C4_unique_ids_fresh (ctx : RoomCtx) (sender : String)
    (ops : List WhiteboardOp) (l : List WhiteboardElement)
    (hs : sender ≠ ctx.localIdentity) (h0 : (elementIds l).Nodup)
    (hloc : freshAdds applyLocal ops l = true)
    (hrem : freshAdds (applyRemote ctx sender) ops l = true) :
    (elementIds (applyLocalOps l ops)).Nodup ∧
    (elementIds (applyRemoteOps ctx sender l ops)).Nodup :=
  ⟨freshAdds_nodup applyLocal (fun l op h hf => applyLocal_nodup l op h hf)
      ops l h0 hloc,
   freshAdds_nodup (applyRemote ctx sender)
      (fun l op h hf => applyRemote_nodup ctx sender hs l op h hf)
      ops l h0 hrem⟩

/-- Witness for amended C4: fresh adds interleaved with removes keep ids
unique on both the local and the remote path. -/
theorem C4_unique_ids_fresh_witness :
    (elementIds (applyLocalOps [sampleElement "a0"]
        [.add (sampleElement "a1"), .remove "a0",
         .add (sampleElement "a2")])).Nodup ∧
    (elementIds (applyRemoteOps ctxA "bob" [sampleElement "a0"]
        [.add (sampleElement "a1"), .remove "a0",
         .add (sampleElement "a2")])).Nodup :=
  C4_unique_ids_fresh ctxA "bob"
    [.add (sampleElement "a1"), .remove "a0", .add (sampleElement "a2")]
    [sampleElement "a0"] (by decide) (by decide) (by decide) (by decide)

/-- No inbound message ever clears the provider's synced flag: once set it
stays set across `handleDataReceived`. -/
theorem handleDataReceived_synced_mono (localIdentity sender topic : String)
    (p : List Nat) (s : ProviderState) (h : s.synced = true) :
    ((handleDataReceived localIdentity sender topic p s).1).synced = true := by
  unfold handleDataReceived
  repeat' split
  all_goals simp_all

/-- After the synced flag is set, no later message in the trace applies a
sync-response snapshot. -/
theorem syncSnapshotApplications_of_synced (localIdentity : String)
    (msgs : List ProviderMsg) :
    ∀ s : ProviderState, s.synced = true →
      syncSnapshotApplications localIdentity s msgs = 0 := by
  induction msgs with
  | nil => intro s _; rfl
  | cons m rest ih =>
      intro s h
      simp only [syncSnapshotApplications]
      rw [ih _ (handleDataReceived_synced_mono localIdentity m.sender m.topic
        m.payload s h)]
      simp [h]

/-- Along any trace of inbound messages, a sync-response snapshot is
applied at most once. -/
theorem syncSnapshotApplications_le_one (localIdentity : String)
    (msgs : List ProviderMsg) :
    ∀ s : ProviderState, syncSnapshotApplications localIdentity s msgs ≤ 1 := by
  induction msgs with
  | nil => intro s; simp [syncSnapshotApplications]
  | cons m rest ih =>
      intro s
      simp only [syncSnapshotApplications]
      by_cases h1 :
          ((handleDataReceived localIdentity m.sender m.topic m.payload s).1).synced = true
      · rw [syncSnapshotApplications_of_synced localIdentity rest _ h1]
        split <;> omega
      · have h1' :
            ((handleDataReceived localIdentity m.sender m.topic m.payload s).1).synced = false := by
          simpa using h1
        simp only [h1', Bool.false_eq_true, false_and, if_false]
        simpa using ih _

/-- Claim C3: in the document sync bridge, a remote sync-response is
applied to the local document at most once per connection lifetime. The
first sync-response received while `synced` is false is applied (one
`Y.applyUpdate`) and sets the flag; any sync-response received while the
flag is set leaves the document and the whole provider state unchanged;
and along any trace of inbound messages starting unsynced, at most one
snapshot application ever happens. -/
theorem C3_sync_response_applied_once (localIdentity sender : String)
    (p : List Nat) (s : ProviderState) (msgs : List ProviderMsg)
    (hs : sender ≠ localIdentity) :
    (s.synced = false →
      handleDataReceived localIdentity sender SYNC_RESPONSE_TOPIC p s =
        ({ s with applied := s.applied ++ [p], synced := true }, [])) ∧
    (s.synced = true →
      handleDataReceived localIdentity sender SYNC_RESPONSE_TOPIC p s =
        (s, [])) ∧
    (s.synced = false →
      syncSnapshotApplications localIdentity s msgs ≤ 1) := by
  refine ⟨?_, ?_, fun _ => syncSnapshotApplications_le_one localIdentity msgs s⟩
  · intro h
    simp [handleDataReceived, hs, SYNC_RESPONSE_TOPIC, DOC_TOPIC,
      AWARENESS_TOPIC, SYNC_REQUEST_TOPIC, h]
  · intro h
    simp [handleDataReceived, hs, SYNC_RESPONSE_TOPIC, DOC_TOPIC,
      AWARENESS_TOPIC, SYNC_REQUEST_TOPIC, h]

/-- Witness for C3: a first snapshot is applied and flips the flag; an
identical later snapshot arriving while synced is a no-op. -/
theorem C3_sync_response_applied_once_witness :
    handleDataReceived "alice" "bob" SYNC_RESPONSE_TOPIC [1, 2]
        { applied := [], awarenessApplied := [], synced := false,
          connected := true, roomConnected := true } =
      ({ applied := [[1, 2]], awarenessApplied := [], synced := true,
         connected := true, roomConnected := true }, []) ∧
    handleDataReceived "alice" "bob" SYNC_RESPONSE_TOPIC [1, 2]
        { applied := [[1, 2]], awarenessApplied := [], synced := true,
          connected := true, roomConnected := true } =
      ({ applied := [[1, 2]], awarenessApplied := [], synced := true,
         connected := true, roomConnected := true }, []) :=
  ⟨(C3_sync_response_applied_once "alice" "bob" [1, 2] _ [] (by decide)).1 rfl,
   (C3_sync_response_applied_once "alice" "bob" [1, 2] _ [] (by decide)).2.1 rfl⟩

/-- A `broadcastCursor` invocation never touches the last-broadcast
timestamp. -/
theorem broadcastCursorCall_lastBroadcast (s : BroadcastState)
    (pos : CursorPosition) :
    (broadcastCursorCall true s pos).lastBroadcast = s.lastBroadcast := by
  simp only [broadcastCursorCall]
  split
  · rfl
  · split <;> rfl

/-- After a non-empty burst of `broadcastCursor` invocations, the pending
position is the last one of the burst, a frame is scheduled, and the
last-broadcast timestamp is untouched. -/
theorem foldl_calls (ps : List CursorPosition) (pos : CursorPosition) :
    ∀ s : BroadcastState,
      (ps ++ [pos]).foldl (broadcastCursorCall true) s =
        { lastBroadcast := s.lastBroadcast, pending := some pos,
          framePending := true } := by
  induction ps with
  | nil =>
      intro s
      simp only [List.nil_append, List.foldl_cons, List.foldl_nil,
        broadcastCursorCall]
      split <;> simp_all
  | cons p rest ih =>
      intro s
      simp only [List.cons_append, List.foldl_cons]
      rw [ih]
      rw [broadcastCursorCall_lastBroadcast]

/-- Running a burst of `call` events first reduces to folding the calls
through the state; the calls themselves produce no sends. -/
theorem runBroadcast_calls_append (cs : List CursorPosition)
    (rest : List BroadcastEvent) :
    ∀ s, runBroadcast true s (cs.map BroadcastEvent.call ++ rest) =
      runBroadcast true (cs.foldl (broadcastCursorCall true) s) rest := by
  induction cs with
  | nil => intro s; rfl
  | cons c cs ih =>
      intro s
      simp only [List.map_cons, List.cons_append, runBroadcast,
        List.foldl_cons]
      exact ih _

/-- Anchored minimum-spacing invariant: prefixing the send list of any
run with the state's last-broadcast timestamp yields a chain whose
successive clock values are at least `BROADCAST_INTERVAL_MS` apart. -/
theorem runBroadcast_chain (events : List BroadcastEvent) :
    ∀ (s : BroadcastState) (q : CursorPosition),
      List.Chain' (fun a b : Nat × CursorPosition =>
          a.1 + BROADCAST_INTERVAL_MS ≤ b.1)
        ((s.lastBroadcast, q) :: (runBroadcast true s events).2) := by
  induction events with
  | nil => intro s q; simp [runBroadcast]
  | cons e rest ih =>
      intro s q
      cases e with
      | call pos =>
          simp only [runBroadcast]
          have h := ih (broadcastCursorCall true s pos) q
          rwa [broadcastCursorCall_lastBroadcast] at h
      | frame now =>
          simp only [runBroadcast]
          by_cases hlt : now - s.lastBroadcast < BROADCAST_INTERVAL_MS
          · have heq : broadcastFrame s now =
                ({ s with framePending := false }, none) := by
              simp [broadcastFrame, hlt]
            rw [heq]
            simpa using ih { s with framePending := false } q
          · cases hp : s.pending with
            | none =>
                have heq : broadcastFrame s now =
                    ({ s with framePending := false }, none) := by
                  simp [broadcastFrame, hlt, hp]
                rw [heq]
                simpa using ih { s with framePending := false } q
            | some pos =>
                have heq : broadcastFrame s now =
                    ({ s with framePending := false, lastBroadcast := now },
                     some pos) := by
                  simp [broadcastFrame, hlt, hp]
                rw [heq]
                have hch := ih
                  { s with framePending := false, lastBroadcast := now } pos
                simp only [BROADCAST_INTERVAL_MS] at hlt ⊢
                refine List.chain'_cons.mpr ⟨by omega, ?_⟩
                simpa [BROADCAST_INTERVAL_MS] using hch

/-- Claim C5: the cursor broadcaster collapses any burst of
`broadcastCursor` calls before one animation frame into at most one send
carrying the most recent position (a burst of calls followed by one frame
at a permitted time yields exactly one send with the last position);
successive network sends are always at least `BROADCAST_INTERVAL_MS`
(33 ms) apart; and calls by themselves never send. -/
theorem C5_throttle_collapse (poses : List CursorPosition)
    (pos : CursorPosition) (t : Nat) (events : List BroadcastEvent)
    (ps : List CursorPosition) (s : BroadcastState)
    (ht : BROADCAST_INTERVAL_MS ≤ t) :
    (runBroadcast true initBroadcastState
        ((poses ++ [pos]).map BroadcastEvent.call ++ [.frame t])).2 =
      [(t, pos)] ∧
    List.Chain' (fun a b : Nat × CursorPosition =>
        a.1 + BROADCAST_INTERVAL_MS ≤ b.1)
      (runBroadcast true initBroadcastState events).2 ∧
    (runBroadcast true s (ps.map BroadcastEvent.call)).2 = [] := by
  refine ⟨?_, ?_, ?_⟩
  · rw [runBroadcast_calls_append, foldl_calls]
    have hnot : ¬ (t - (initBroadcastState.lastBroadcast : Nat) <
        BROADCAST_INTERVAL_MS) := by
      simp only [initBroadcastState, BROADCAST_INTERVAL_MS] at *
      omega
    simp [runBroadcast, broadcastFrame, hnot]
  · exact List.Chain'.tail (runBroadcast_chain events initBroadcastState
      { x := 0, y := 0 })
  · rw [← List.append_nil (ps.map BroadcastEvent.call),
      runBroadcast_calls_append]
    rfl

/-- Witness for C5: one hundred calls in a burst followed by a single
animation frame produce exactly one send, carrying the hundredth
position. -/
theorem C5_throttle_collapse_witness :
    (runBroadcast true initBroadcastState
        ((manyPositions ++ [({ x := 7, y := 7 } : CursorPosition)]).map
            BroadcastEvent.call ++ [.frame 1700000000000])).2 =
      [(1700000000000, ({ x := 7, y := 7 } : CursorPosition))] :=
  (C5_throttle_collapse manyPositions { x := 7, y := 7 } 1700000000000
    [] [] initBroadcastState (by decide)).1

/-- One history operation preserves the history invariant. -/
theorem applyHistoryOp_inv (s : HistoryState) (op : HistoryOp)
    (h : HistoryInv s) : HistoryInv (applyHistoryOp s op) := by
  obtain ⟨h1, h2, h3⟩ := h
  cases op with
  | push snapshot =>
      simp only [applyHistoryOp, pushToHistory, HistoryInv]
      have htake : (s.history.take (s.historyIndex + 1)).length =
          s.historyIndex + 1 := by
        rw [List.length_take]
        omega
      split
      · next hgt =>
          simp only [List.length_append, List.length_cons, List.length_nil,
            htake] at hgt
          refine ⟨?_, ?_, ?_⟩ <;>
            simp only [List.length_tail, List.length_append, List.length_cons,
              List.length_nil, htake] <;> omega
      · next hle =>
          simp only [List.length_append, List.length_cons, List.length_nil,
            htake] at hle
          refine ⟨?_, ?_, ?_⟩ <;>
            simp only [List.length_append, List.length_cons, List.length_nil,
              htake] <;> omega
  | undo =>
      simp only [applyHistoryOp, handleUndo, canUndo, HistoryInv]
      split
      · refine ⟨h1, h2, ?_⟩
        show s.historyIndex - 1 < s.history.length
        omega
      · exact ⟨h1, h2, h3⟩
  | redo =>
      simp only [applyHistoryOp, handleRedo, canRedo, HistoryInv]
      split
      · next hcan =>
          simp only [decide_eq_true_eq] at hcan
          refine ⟨h1, h2, ?_⟩
          show s.historyIndex + 1 < s.history.length
          omega
      · exact ⟨h1, h2, h3⟩

/-- The history invariant holds along any run of operations. -/
theorem runHistory_inv (ops : List HistoryOp) :
    ∀ s : HistoryState, HistoryInv s → HistoryInv (runHistory s ops) := by
  induction ops with
  | nil => intro s h; exact h
  | cons op rest ih =>
      intro s h
      exact ih (applyHistoryOp s op) (applyHistoryOp_inv s op h)

/-- Claim C10: after any sequence of pushToHistory, undo, and redo
operations from the initial history, the snapshot array holds at most 50
entries and the index stays within bounds (it is at most length − 1 and
strictly below the length), so the snapshot that undo and redo resolve to
always exists. -/
theorem C10_history_bounded (ops : List HistoryOp) :
    (runHistory initHistory ops).history.length ≤ 50 ∧
    (runHistory initHistory ops).historyIndex ≤
      (runHistory initHistory ops).history.length - 1 ∧
    (runHistory initHistory ops).historyIndex <
      (runHistory initHistory ops).history.length := by
  have h := runHistory_inv ops initHistory
    (by simp [HistoryInv, initHistory])
  obtain ⟨h1, h2, h3⟩ := h
  exact ⟨h2, by omega, h3⟩

end DevSync
